import Mathlib

/-!
Verification development for the shallowflow-api workflow engine.

Shallow embedding of the Python sources under src/shallowflow/api/:
vars.py (variable store, padded references, text expansion), storage.py
(storage store and change listeners), config.py (Option, OptionManager),
actor.py (Actor lifecycle: reset, setup, pre/do/post execute), control.py
(ActorHandler: child-name deduplication, stop_execution), director.py,
callable.py and actor_utils.py (callable-actor scope resolution).

Conventions of the embedding:
* Python strings are Lean String; character-level scanning is done on
  String.toList (List Char) so that every definition reduces in the kernel.
* Python dicts used as ordered string-keyed maps become association lists
  (insertion order preserved, keys unique by construction).
* Methods that can raise become Except String valued functions; an
  Except.error models a raised Python exception escaping the call.
* Python while-loops that are not structurally terminating are modelled
  with an explicit iteration budget (fuel); a fuel-sufficiency lemma or a
  concrete evaluation shows the budget is irrelevant wherever it matters,
  and a result of none models a loop that has not terminated within the
  budget.
-/

/-! ## Association-list helpers (Python dict as ordered map) -/

/-- Lookup in an association list, first binding wins (dict access). -/
def assocGet {α : Type} : List (String × α) → String → Option α
  | [], _ => none
  | (k, v) :: t, key => if k = key then some v else assocGet t key

/-- Dict update: replace in place if the key exists, else append
(matches CPython dict insertion-order semantics). -/
def assocSet {α : Type} : List (String × α) → String → α → List (String × α)
  | [], key, v => [(key, v)]
  | (k, w) :: t, key, v => if k = key then (k, v) :: t else (k, w) :: assocSet t key v

/-- Dict deletion (del d[key]); no-op when absent. -/
def assocDel {α : Type} : List (String × α) → String → List (String × α)
  | [], _ => []
  | (k, w) :: t, key => if k = key then t else (k, w) :: assocDel t key

/-! ## Decimal rendering of naturals

Models Python str(i) for a non-negative integer, used by the sibling-name
deduplication of control.py (name + " (" + str(i) + ")").  Defined with a
structural fuel so it reduces in the kernel; fuel n+1 always suffices since
the remaining number shrinks by a factor 10 each step. -/

def digitChar (n : Nat) : Char := Char.ofNat (48 + n)

def natStrAux : Nat → Nat → List Char
  | 0, _ => []
  | fuel + 1, n =>
    if n < 10 then [digitChar n]
    else natStrAux fuel (n / 10) ++ [digitChar (n % 10)]

def natStr (n : Nat) : String := String.mk (natStrAux (n + 1) n)

/-! ## vars.py: names, padded references -/

/-- vars.py VALID_CHARS. -/
def VALID_CHARS : String := "abcdefghijklmnopqrstuvwxyzABCDEFGHIJKLMNOPQRSTUVWXYZ0123456789-_"

/-- vars.py is_valid_name: every character drawn from VALID_CHARS
(note: the empty string passes, exactly as in the source). -/
def is_valid_name (s : String) : Bool :=
  s.toList.all (fun c => VALID_CHARS.toList.contains c)

/-- vars.py VAR_START ("@" followed by an opening brace) as a char list. -/
def varStartL : List Char := "@\x7b".toList

/-- vars.py VAR_END (a closing brace) as a char list. -/
def varEndL : List Char := "\x7d".toList

/-- vars.py is_var: the string starts with VAR_START and ends with VAR_END. -/
def is_var (s : String) : Bool :=
  (List.isPrefixOf varStartL s.toList) && (List.isSuffixOf varEndL s.toList)

/-- vars.py pad_var. -/
def pad_var (s : String) : String := "@\x7b" ++ s ++ "\x7d"

/-- vars.py unpad_var: strips the 2-char start marker and the 1-char
end marker when the string is a padded reference. -/
def unpad_var (s : String) : String :=
  if is_var s then String.mk ((s.toList.drop 2).take (s.toList.length - 3)) else s

/-! ## Change events and listeners (vars.py / storage.py)

VariableChangeEvent and StorageChangeEvent both carry an event type string
and the affected key (absent for the cleared event); the back reference to
the emitting store is omitted.  A listener object is modelled by which of
the two callback methods its Python class actually implements, together
with the log of events each callback has received; invoking a method the
object does not implement models Python's AttributeError. -/

structure SEvent where
  event_type : String
  key : Option String
deriving DecidableEq, Repr

/-- A listener object.  impl_variables_changed / impl_storage_changed say
whether the object's class implements the corresponding callback method;
the two lists log the events each callback received, in delivery order. -/
structure ChangeListener where
  impl_variables_changed : Bool
  impl_storage_changed : Bool
  variables_received : List SEvent
  storage_received : List SEvent
deriving DecidableEq, Repr

/-- Calling l.variables_changed(event): delivers to the variables callback
when implemented, otherwise raises AttributeError. -/
def callVariablesChanged (l : ChangeListener) (e : SEvent) : Except String ChangeListener :=
  if l.impl_variables_changed then
    .ok { l with variables_received := l.variables_received ++ [e] }
  else .error "AttributeError: variables_changed"

/-- Calling l.storage_changed(event): delivers to the storage callback
when implemented, otherwise raises AttributeError. -/
def callStorageChanged (l : ChangeListener) (e : SEvent) : Except String ChangeListener :=
  if l.impl_storage_changed then
    .ok { l with storage_received := l.storage_received ++ [e] }
  else .error "AttributeError: storage_changed"

/-! ## vars.py Variables -/

/-- Variables: _data plus _listeners.  Values are stored as strings (the
flows bind textual variable values; OptionManager.get converts them back
through the registered string readers). -/
structure Variables where
  data : List (String × String)
  listeners : List ChangeListener
deriving DecidableEq, Repr

/-- Variables._notify_listeners: calls variables_changed on every listener,
synchronously, before the mutating call returns. -/
def Variables.notify_listeners (ls : List ChangeListener) (e : SEvent) :
    Except String (List ChangeListener) :=
  match ls with
  | [] => .ok []
  | l :: t => do
    let l' ← callVariablesChanged l e
    let t' ← Variables.notify_listeners t e
    .ok (l' :: t')

/-- Variables.has: raises on an invalid variable name, else membership. -/
def Variables.hasE (vs : Variables) (key : String) : Except String Bool :=
  if is_valid_name key then .ok ((assocGet vs.data key).isSome)
  else .error ("Invalid variable name: " ++ key)

/-- Variables.get: raises on an invalid variable name, else the stored
value or None. -/
def Variables.getE (vs : Variables) (key : String) : Except String (Option String) :=
  if is_valid_name key then .ok (assocGet vs.data key)
  else .error ("Invalid variable name: " ++ key)

/-- Variables.set: validates the name, stores the value, then notifies all
listeners with the added event (key absent before) or the updated event
(key present), before returning. -/
def Variables.set (vs : Variables) (key : String) (value : String) :
    Except String Variables :=
  if is_valid_name key then
    if (assocGet vs.data key).isSome then do
      let ls ← Variables.notify_listeners vs.listeners ⟨"updated", some key⟩
      .ok { data := assocSet vs.data key value, listeners := ls }
    else do
      let ls ← Variables.notify_listeners vs.listeners ⟨"added", some key⟩
      .ok { data := assocSet vs.data key value, listeners := ls }
  else .error ("Invalid variable name: " ++ key)

/-- Variables.remove: validates the name; deletes and notifies with the
deleted event only when the key was present. -/
def Variables.remove (vs : Variables) (key : String) : Except String Variables :=
  if is_valid_name key then
    if (assocGet vs.data key).isSome then do
      let ls ← Variables.notify_listeners vs.listeners ⟨"deleted", some key⟩
      .ok { data := assocDel vs.data key, listeners := ls }
    else .ok vs
  else .error ("Invalid variable name: " ++ key)

/-- Variables.clear: drops all entries and notifies with the cleared event
(no key), regardless of prior emptiness. -/
def Variables.clear (vs : Variables) : Except String Variables := do
  let ls ← Variables.notify_listeners vs.listeners ⟨"cleared", none⟩
  .ok { data := [], listeners := ls }

/-! ## storage.py Storage

Structurally identical store; the crucial difference sits in
Storage._notify_listeners (storage.py line 263), which invokes
l.variables_changed(event) on its listeners instead of the
storage_changed callback declared by StorageChangeListener. -/

structure Storage where
  data : List (String × String)
  listeners : List ChangeListener
deriving DecidableEq, Repr

/-- Storage._notify_listeners, faithfully: for every registered listener it
calls l.variables_changed(event) (sic, storage.py line 263) and never the
storage_changed callback. -/
def Storage.notify_listeners (ls : List ChangeListener) (e : SEvent) :
    Except String (List ChangeListener) :=
  match ls with
  | [] => .ok []
  | l :: t => do
    let l' ← callVariablesChanged l e
    let t' ← Storage.notify_listeners t e
    .ok (l' :: t')

/-- Storage.set: validates the name, stores, then notifies (added if the
key was absent, else updated) before returning. -/
def Storage.set (st : Storage) (key : String) (value : String) :
    Except String Storage :=
  if is_valid_name key then
    if (assocGet st.data key).isSome then do
      let ls ← Storage.notify_listeners st.listeners ⟨"updated", some key⟩
      .ok { data := assocSet st.data key value, listeners := ls }
    else do
      let ls ← Storage.notify_listeners st.listeners ⟨"added", some key⟩
      .ok { data := assocSet st.data key value, listeners := ls }
  else .error ("Invalid storage name: " ++ key)

/-- Storage.remove: deletes and notifies with the deleted event only when
the key was present. -/
def Storage.remove (st : Storage) (key : String) : Except String Storage :=
  if is_valid_name key then
    if (assocGet st.data key).isSome then do
      let ls ← Storage.notify_listeners st.listeners ⟨"deleted", some key⟩
      .ok { data := assocDel st.data key, listeners := ls }
    else .ok st
  else .error ("Invalid storage name: " ++ key)

/-- Storage.clear: drops all entries and notifies with the cleared event. -/
def Storage.clear (st : Storage) : Except String Storage := do
  let ls ← Storage.notify_listeners st.listeners ⟨"cleared", none⟩
  .ok { data := [], listeners := ls }

/-! ## vars.py text expansion (expand / _do_expand)

Python str.find is modelled on char lists: findSub returns the first index
at which the pattern occurs (None for Python's -1), findSubFrom searches
from a start index and reports an absolute index. -/

def findSub (pat : List Char) : List Char → Option Nat
  | [] => if List.isPrefixOf pat [] then some 0 else none
  | c :: t =>
    if List.isPrefixOf pat (c :: t) then some 0
    else (findSub pat t).map (· + 1)

/-- Python s.find(pat, start). -/
def findSubFrom (pat : List Char) (s : List Char) (start : Nat) : Option Nat :=
  (findSub pat (s.drop start)).map (· + start)

/-- Python substring containment (pat in s). -/
def containsSub (pat : List Char) (s : List Char) : Bool :=
  (findSub pat s).isSome

/-- The body of _do_expand's while loop.  State: remaining input tmp,
accumulated result, the expanded flag.  Every iteration either leaves the
loop (returning result + leftover tmp exactly as the source does after the
loop or at the break) or drops at least the three characters of one
reference from tmp, so the fuel tmp.length + 1 used by do_expand can never
run out; the 0 case is unreachable.  Variable values are read from the
store's data (str() of a stored string is itself). -/
def do_expand_go (vars : List (String × String)) :
    Nat → List Char → List Char → Bool → List Char × Bool
  | 0, tmp, res, expanded => (res ++ tmp, expanded)
  | fuel + 1, tmp, res, expanded =>
    if containsSub varStartL tmp && containsSub varEndL tmp then
      match findSub varStartL tmp with
      | none => (res ++ tmp, expanded)
      | some start =>
        match findSubFrom varEndL tmp start with
        | none => (res ++ tmp, expanded)
        | some e =>
          let name := String.mk ((tmp.drop (start + 2)).take (e - (start + 2)))
          let res2 := res ++ tmp.take start ++
            (match assocGet vars name with
             | some v => v.toList
             | none => [])
          do_expand_go vars fuel (tmp.drop (e + 1)) res2 true
    else (res ++ tmp, expanded)

/-- vars.py _do_expand: one full pass over the string, substituting every
reference found left to right; returns the new string and whether anything
was substituted. -/
def do_expand (s : List Char) (vars : List (String × String)) : List Char × Bool :=
  do_expand_go vars (s.length + 1) s [] false

/-- vars.py expand: the unbounded outer while-True loop, repeating
_do_expand until a pass substitutes nothing or the result contains no
further VAR_START.  The source has no other exit, so the loop is given an
explicit fuel here; none means the loop has not terminated within fuel
iterations. -/
def expandFuel (vars : List (String × String)) : Nat → List Char → Option (List Char)
  | 0, _ => none
  | fuel + 1, s =>
    let r := do_expand s vars
    if !r.2 then some r.1
    else if !containsSub varStartL r.1 then some r.1
    else expandFuel vars fuel r.1

/-! ## config.py: Option and OptionManager

The dynamic Python values an option can hold are modelled by the closed
universe PValue (bool / int / str) with the declared types VType; these are
the scalar types for which serialization.vars registers string readers
(BoolStringReader, IntStringReader, StringReader). -/

inductive VType where
  | tBool
  | tInt
  | tStr
deriving DecidableEq, Repr

inductive PValue where
  | bool (b : Bool)
  | int (n : Int)
  | str (s : String)
deriving DecidableEq, Repr

/-- Python isinstance(value, value_type) on the closed universe.  A bool
is an instance of int in Python, which the model preserves. -/
def pyIsInstance (v : PValue) (t : VType) : Bool :=
  match v, t with
  | .bool _, .tBool => true
  | .bool _, .tInt => true
  | .int _, .tInt => true
  | .str _, .tStr => true
  | _, _ => false

/-- The numeric view used by the bound checks (Python compares bool as
int: True is 1, False is 0); none when comparing a non-number would raise. -/
def pvAsInt : PValue → Option Int
  | .bool b => some (if b then 1 else 0)
  | .int n => some n
  | .str _ => none

/-- config.py is_var applied to a config value: isinstance(value, str)
and padded. -/
def PValue.isVar : PValue → Bool
  | .str s => is_var s
  | _ => false

/-- The numeric value of an ASCII digit, none for any other character. -/
def digitVal (c : Char) : Option Nat :=
  if 48 ≤ c.toNat && c.toNat ≤ 57 then some (c.toNat - 48) else none

/-- Digit-string accumulator for pyInt?. -/
def parseNatGo : List Char → Nat → Option Nat
  | [], acc => some acc
  | c :: t, acc =>
    match digitVal c with
    | some d => parseNatGo t (acc * 10 + d)
    | none => none

/-- A non-empty run of decimal digits. -/
def parseNatDigits (cs : List Char) : Option Nat :=
  match cs with
  | [] => none
  | _ => parseNatGo cs 0

/-- Python int(s) on the inputs the flows use: an optional sign followed
by decimal digits; none models the ValueError raised otherwise
(surrounding whitespace and underscore separators, which CPython also
accepts, are not modelled). -/
def pyInt? (s : String) : Option Int :=
  match s.toList with
  | '-' :: rest => (parseNatDigits rest).map (fun n => -(n : Int))
  | '+' :: rest => (parseNatDigits rest).map (fun n => (n : Int))
  | cs => (parseNatDigits cs).map (fun n => (n : Int))

/-- The conversion performed by the string reader registered for the
declared type (serialization/vars.py): StringReader is the identity,
BoolStringReader is bool(s) (Python truthiness of a string: non-empty),
IntStringReader is int(s), raising ValueError on unparseable input. -/
def readerConvert (t : VType) (s : String) : Except String PValue :=
  match t with
  | .tStr => .ok (.str s)
  | .tBool => .ok (.bool (decide (s ≠ "")))
  | .tInt =>
    match pyInt? s with
    | some n => .ok (.int n)
    | none => .error ("ValueError: invalid literal for int: " ++ s)

/-- serialization.vars get_string_reader: every type of the closed
universe has a registered reader. -/
def get_string_reader (t : VType) : Option (String → Except String PValue) :=
  some (readerConvert t)

/-- config.py Option (named Opt here; Option is taken by Lean).  Fields in
source order: name, value_type, def_value, base_type (element type for
list options, unused by the scalar universe), var (the attached variable,
initially None), lower and upper bound. -/
structure Opt where
  name : String
  value_type : VType
  def_value : PValue
  base_type : Option VType
  var : Option String
  lower : Option Int
  upper : Option Int
deriving DecidableEq, Repr

/-- config.py Option.is_in_range: checks the lower bound then the upper
bound when present, returning None when within range and a message
otherwise.  Comparing a non-numeric value against a bound raises TypeError
in Python 3, modelled by the error case (never reached by options without
bounds, which is the only way non-numeric options occur). -/
def Opt.is_in_range (o : Opt) (value : PValue) : Except String (Option String) :=
  match o.lower with
  | some lo =>
    match pvAsInt value with
    | none => .error "TypeError: not supported between str and int"
    | some n =>
      if n < lo then .ok (some "Below lower bound")
      else
        match o.upper with
        | some up =>
          if n > up then .ok (some "Above upper bound") else .ok none
        | none => .ok none
  | none =>
    match o.upper with
    | some up =>
      match pvAsInt value with
      | none => .error "TypeError: not supported between str and int"
      | some n =>
        if n > up then .ok (some "Above upper bound") else .ok none
    | none => .ok none

/-- config.py OptionManager: _options (ordered, name-keyed, names unique),
_values (the literal overrides) and the attached Variables. -/
structure OptionManager where
  options : List Opt
  values : List (String × PValue)
  vars : Variables
deriving DecidableEq, Repr

/-- Lookup of the Option descriptor by name (access to _options). -/
def OptionManager.findOpt (om : OptionManager) (name : String) : Option Opt :=
  om.options.find? (fun o => o.name = name)

/-- OptionManager.has. -/
def OptionManager.has (om : OptionManager) (name : String) : Bool :=
  (om.findOpt name).isSome

/-- OptionManager.has_var: the option exists and has a variable attached. -/
def OptionManager.has_var (om : OptionManager) (name : String) : Bool :=
  match om.findOpt name with
  | some o => o.var.isSome
  | none => false

/-- OptionManager.get_var: raises on an unknown option, else the attached
variable or None. -/
def OptionManager.get_var (om : OptionManager) (name : String) :
    Except String (Option String) :=
  match om.findOpt name with
  | some o => .ok o.var
  | none => .error ("Unknown option: " ++ name)

/-- In-place mutation of the Option descriptor stored under the given
name (the Python code assigns to the descriptor held by the _options
dict). -/
def OptionManager.updOpt (om : OptionManager) (name : String) (f : Opt → Opt) :
    OptionManager :=
  { om with options := om.options.map (fun o => if o.name = name then f o else o) }

/-- OptionManager.set_var: validates the option name and the variable
name, then attaches the variable to the option descriptor. -/
def OptionManager.set_var (om : OptionManager) (name : String) (var : String) :
    Except String OptionManager :=
  if !(om.has name) then .error ("Unknown option: " ++ name)
  else if !(is_valid_name var) then .error ("Invalid variable name: " ++ var)
  else .ok (om.updOpt name (fun o => { o with var := some var }))

/-- OptionManager.remove_var: validates the option name, then detaches
any variable from the option descriptor. -/
def OptionManager.remove_var (om : OptionManager) (name : String) :
    Except String OptionManager :=
  if !(om.has name) then .error ("Unknown option: " ++ name)
  else .ok (om.updOpt name (fun o => { o with var := none }))

/-- config.py OptionManager.set: raises on an unknown option; a padded
variable reference binds the variable on the descriptor (and touches
nothing else); any other value is type-checked, bound-checked, and then
stored as the literal override in _values (and touches no variable
binding). -/
def OptionManager.set (om : OptionManager) (name : String) (value : PValue) :
    Except String OptionManager :=
  match om.findOpt name with
  | none => .error ("Invalid option name: " ++ name)
  | some opt =>
    if value.isVar then
      match value with
      | .str s => .ok (om.updOpt name (fun o => { o with var := some (unpad_var s) }))
      | _ => .error "unreachable"
    else
      if !(pyIsInstance value opt.value_type) then
        .error ("Invalid config type for " ++ name)
      else
        match opt.is_in_range value with
        | .error e => .error e
        | .ok (some msg) => .error ("Invalid value for " ++ name ++ ": " ++ msg)
        | .ok none => .ok { om with values := assocSet om.values name value }

/-- config.py OptionManager.get: None for an unknown option; when a
variable is attached and currently present in the attached store, the
variable's string value converted through the registered reader (a
conversion error propagates, and the never-taken no-reader branch falls
through to the literal, as in the source); else the literal override when
one was stored; else the declared default. -/
def OptionManager.get (om : OptionManager) (name : String) :
    Except String (Option PValue) :=
  match om.findOpt name with
  | none => .ok none
  | some opt =>
    match opt.var with
    | some v => do
      let present ← om.vars.hasE v
      if present then
        match assocGet om.vars.data v with
        | some value =>
          match get_string_reader opt.value_type with
          | some reader => do
            let converted ← reader value
            .ok (some converted)
          | none =>
            match assocGet om.values name with
            | some lit => .ok (some lit)
            | none => .ok (some opt.def_value)
        | none =>
          match assocGet om.values name with
          | some lit => .ok (some lit)
          | none => .ok (some opt.def_value)
      else
        match assocGet om.values name with
        | some lit => .ok (some lit)
        | none => .ok (some opt.def_value)
    | none =>
      match assocGet om.values name with
      | some lit => .ok (some lit)
      | none => .ok (some opt.def_value)

/-! ## actor.py: lifecycle (reset / setup / _pre_execute / execute)

The base Actor's lifecycle fields and methods are embedded directly; the
behavior a concrete subclass adds (its extra reset/setup work, the
state-export hook _backup_state and state-import hook _restore_state) is
a parameter bundle SubImpl over the subclass state sigma, exporting into an
arbitrary dictionary type delta. -/

/-- The subclass-supplied parts of the lifecycle.  resetSub is what the
subclass's reset() override adds after super().reset(); setupSub is the
derived-state rebuild its setup() performs after super().setup();
detectVars stands for option_manager.detect_vars(skip=[Actor]) (bindings
do not change during reconfiguration, only variable values do); backup and
restore are _backup_state / _restore_state. -/
structure SubImpl (σ δ : Type) where
  resetSub : σ → σ
  setupSub : σ → σ
  detectVars : List String
  backup : σ → δ
  restore : σ → δ → σ

/-- The base Actor's state: _stopped, the cached _log_prefix, the
_variables_changed flag, the _variables_detected list, whether the actor
is currently registered as a variable-store listener, and the subclass
state. -/
structure ActorState (σ : Type) where
  stopped : Bool
  logPfx : Option String
  varsChanged : Bool
  varsDetected : List String
  listening : Bool
  sub : σ

/-- actor.py Actor.reset (running the full override chain): clears the
cached log prefix, the changed flag and the detected-variables list, and
lets the subclass clear its derived state. -/
def Actor.reset {σ δ : Type} (impl : SubImpl σ δ) (a : ActorState σ) : ActorState σ :=
  { a with
    logPfx := none
    varsChanged := false
    varsDetected := []
    sub := impl.resetSub a.sub }

/-- actor.py Actor.setup (with the subclass's derived-state rebuild):
clears stopped and the log prefix, recomputes the detected variables,
re-registers as listener, and returns None for success. -/
def Actor.setup {σ δ : Type} (impl : SubImpl σ δ) (a : ActorState σ) :
    Option String × ActorState σ :=
  (none,
   { a with
     stopped := false
     logPfx := none
     varsDetected := impl.detectVars
     listening := true
     sub := impl.setupSub a.sub })

/-- actor.py Actor._pre_execute: when a watched variable changed, export
the transient state, reset, re-run setup (its return value is discarded by
the source), and import the exported state again; always returns None. -/
def Actor.pre_execute {σ δ : Type} (impl : SubImpl σ δ) (a : ActorState σ) :
    Option String × ActorState σ :=
  if a.varsChanged then
    let state := impl.backup a.sub
    let a1 := Actor.reset impl a
    let a2 := (Actor.setup impl a1).2
    (none, { a2 with sub := impl.restore a2.sub state })
  else (none, a)

/-! actor.py Actor.execute: the three-stage orchestration with its
try/except.  A stage is a function from the object state to either a
raised exception (carrying the state at the raise) or a normal return of
the result message (None = success) and the new state. -/

/-- Type of the _pre_execute / _do_execute stages as dispatched virtually. -/
def Stage (σ : Type) : Type := σ → Except (String × σ) (Option String × σ)

/-- Type of the _post_execute stage (its return value is ignored). -/
def PostStage (σ : Type) : Type := σ → Except (String × σ) σ

/-- actor.py Actor.execute, lines 250-264: result = _pre_execute(); only
when that is None, result = _do_execute() and then _post_execute() runs
(unconditionally, whatever _do_execute returned); any exception raised by
a stage is caught and becomes the returned failure message. -/
def executeStages {σ : Type} (pre doE : Stage σ) (post : PostStage σ) (s : σ) :
    Option String × σ :=
  match pre s with
  | .error (e, s1) => (some e, s1)
  | .ok (some msg, s1) => (some msg, s1)
  | .ok (none, s1) =>
    match doE s1 with
    | .error (e, s2) => (some e, s2)
    | .ok (r, s2) =>
      match post s2 with
      | .error (e, s3) => (some e, s3)
      | .ok s3 => (r, s3)

/-- A stage that logs its name and returns the given result message. -/
def logStage (name : String) (r : Option String) : Stage (List String) :=
  fun s => .ok (r, s ++ [name])

/-- A stage that raises before doing anything observable. -/
def raiseStage (msg : String) : Stage (List String) :=
  fun s => .error (msg, s)

/-- A post stage that logs its name. -/
def logPost (name : String) : PostStage (List String) :=
  fun s => .ok (s ++ [name])

/-- A post stage that raises. -/
def raisePost (msg : String) : PostStage (List String) :=
  fun s => .error (msg, s)

/-! ## control.py ActorHandler: stop_execution

An actor tree as seen by stop_execution: a leaf runs the base
Actor.stop_execution (sets its own flag); an ActorHandler first reads
self._director — an attribute that is assigned nowhere before
ActorHandler.setup (control.py line 194), so reading it on a handler whose
setup never ran raises AttributeError — stops the director when it is not
None, then stops every child, then sets its own flag. -/

inductive HActor where
  /-- A plain (leaf) actor carrying its _stopped flag. -/
  | leaf (stopped : Bool)
  /-- An ActorHandler: its _stopped flag, the state of the _director
  attribute (none = attribute never assigned, some none = assigned None,
  some (some b) = director present with stopped flag b), and its children. -/
  | handler (stopped : Bool) (directorAttr : Option (Option Bool)) (children : List HActor)
deriving Repr

mutual

/-- actor.py Actor.stop_execution / control.py ActorHandler.stop_execution.
The handler case mirrors the source order: read self._director (raising
AttributeError when the attribute was never assigned), stop it when not
None, stop every child, then set the own flag via super(). -/
def HActor.stopExec : HActor → Except String HActor
  | .leaf _ => .ok (.leaf true)
  | .handler _ directorAttr children =>
    match directorAttr with
    | none => .error "AttributeError: ActorHandler object has no attribute _director"
    | some d =>
      match HActor.stopExecList children with
      | .error e => .error e
      | .ok children' => .ok (.handler true (some (d.map (fun _ => true))) children')

/-- The for-loop over the children. -/
def HActor.stopExecList : List HActor → Except String (List HActor)
  | [] => .ok []
  | c :: rest =>
    match c.stopExec with
    | .error e => .error e
    | .ok c' =>
      match HActor.stopExecList rest with
      | .error e => .error e
      | .ok rest' => .ok (c' :: rest')

end

/-! ## control.py ActorHandler.actors setter: sibling-name deduplication -/

/-- The candidate name built inside the renaming loop:
a.name + " (" + str(i) + ")". -/
def candName (base : String) (i : Nat) : String :=
  base ++ " (" ++ natStr i ++ ")"

/-- The inner while-loop of the actors setter (control.py lines 84-88):
starting from i and the current candidate, increment i and rebuild the
candidate until it no longer collides with the names taken so far.  The
loop is run with fuel names.length + 1, which is always enough: the tested
candidates are pairwise distinct strings, so at most names.length of them
can collide (renameWhile_fresh below). -/
def renameWhile (base : String) (names : List String) : Nat → Nat → String → String
  | 0, _, name => name
  | fuel + 1, i, name =>
    if name ∈ names then renameWhile base names fuel (i + 1) (candName base (i + 1))
    else name

/-- The for-loop of the actors setter over the children's current names:
a colliding name is replaced by the first free suffixed candidate, a free
name is kept; either way the resulting name is appended to the taken
list. -/
def dedupGo : List String → List String → List String
  | [], names => names
  | a :: rest, names =>
    if a ∈ names then
      dedupGo rest (names ++ [renameWhile a names (names.length + 1) 1 a])
    else
      dedupGo rest (names ++ [a])

/-- The sibling names produced by assigning a child list whose names are
the given list (control.py ActorHandler.actors setter, lines 79-91). -/
def uniqueNames (actors : List String) : List String :=
  dedupGo actors []

/-! ## callable.py / actor_utils.py: callable-actor scope resolution

The actor tree as seen by the resolution: plain actors, reference-pool
composites (ActorReferenceHandler) and other composites (ActorHandler),
composites carrying the can_contain_standalones capability of their
actor_handler_info.  The tag of a plain actor stands for the rest of its
configuration (e.g. its annotation option) and serves only to tell
equally-named actors apart. -/

inductive PActor where
  | plain (name : String) (tag : String)
  | refPool (name : String) (canStandalones : Bool) (children : List PActor)
  | handler (name : String) (canStandalones : Bool) (children : List PActor)
deriving Repr

/-- Actor.name. -/
def PActor.nameOf : PActor → String
  | .plain n _ => n
  | .refPool n _ _ => n
  | .handler n _ _ => n

/-- The children of a composite (empty for a plain actor). -/
def PActor.childrenOf : PActor → List PActor
  | .plain _ _ => []
  | .refPool _ _ cs => cs
  | .handler _ _ cs => cs

/-- actor_handler_info.can_contain_standalones. -/
def PActor.canStandalones : PActor → Bool
  | .plain _ _ => false
  | .refPool _ b _ => b
  | .handler _ b _ => b

/-- isinstance(x, ActorHandler). -/
def PActor.isHandler : PActor → Bool
  | .plain _ _ => false
  | .refPool _ _ _ => true
  | .handler _ _ _ => true

/-- control.py ActorHandler.index for a name: the index of the first child
with that name, -1 when absent. -/
def actorIndexFrom (i : Int) (name : String) : List PActor → Int
  | [] => -1
  | c :: rest => if c.nameOf = name then i else actorIndexFrom (i + 1) name rest

/-- actor.index(name). -/
def actorIndex (cs : List PActor) (name : String) : Int :=
  actorIndexFrom 0 name cs

/-- callable.py find_callable_actor on an ActorReferenceHandler: index the
name among the children and return actors[index] when found. -/
def poolLookup (cs : List PActor) (name : String) : Option PActor :=
  let index := actorIndex cs name
  if index > -1 then cs.get? index.toNat else none

/-- callable.py find_callable_actor on a plain ActorHandler: scan the
immediate children in order; for each child that is an
ActorReferenceHandler, look the name up there (the recursive call in the
source immediately takes the reference-handler branch, i.e. poolLookup),
first hit wins. -/
def scanForPool : List PActor → String → Option PActor
  | [], _ => none
  | c :: rest, name =>
    match c with
    | .refPool _ _ cs =>
      match poolLookup cs name with
      | some r => some r
      | none => scanForPool rest name
    | _ => scanForPool rest name

/-- callable.py find_callable_actor. -/
def find_callable_actor (a : PActor) (name : String) : Option PActor :=
  match a with
  | .plain _ _ => none
  | .refPool _ _ cs => poolLookup cs name
  | .handler _ _ cs => scanForPool cs name

/-- The chain of actors strictly above the node reached by following the
child indices in path, listed root first (the node itself excluded). -/
def chainTo (a : PActor) : List Nat → List PActor
  | [] => []
  | i :: rest =>
    a :: (match a.childrenOf.get? i with
          | some c => chainTo c rest
          | none => [])

/-- actor_utils.py find_actor_handlers with must_allow_standalones=True
and include_same_level=False (the arguments callable.py passes): the
ancestor composites of the referencing actor, nearest first, keeping only
those whose info allows standalones. -/
def find_actor_handlers (root : PActor) (path : List Nat) : List PActor :=
  ((chainTo root path).reverse).filter
    (fun a => a.isHandler && a.canStandalones)

/-- The for-loop of find_callable_actor_recursive: first handler in which
the lookup succeeds wins. -/
def findFirstCallable : List PActor → String → Option PActor
  | [], _ => none
  | h :: rest, name =>
    match find_callable_actor h name with
    | some r => some r
    | none => findFirstCallable rest name

/-- callable.py find_callable_actor_recursive for the actor reached by
path from root. -/
def find_callable_actor_recursive (root : PActor) (path : List Nat) (name : String) :
    Option PActor :=
  findFirstCallable (find_actor_handlers root path) name

/-! ## Concrete instances used by the theorems below -/

/-- An OptionManager with a single int option "x" (default 0, no bounds),
no literal overrides, no bound variables, an empty attached store. -/
def omC1 : OptionManager :=
  { options := [⟨"x", VType.tInt, PValue.int 0, none, none, none, none⟩]
    values := []
    vars := ⟨[], []⟩ }

/-- The manager reached from omC1 by set("x", 5) followed by
set("x", "@\x7bv\x7d"): variable v bound AND the literal override 5 still
stored. -/
def omC1after : OptionManager :=
  { options := [⟨"x", VType.tInt, PValue.int 0, none, some "v", none, none⟩]
    values := [("x", PValue.int 5)]
    vars := ⟨[], []⟩ }

/-- An OptionManager whose int option "x" (default 7) has the literal
override 5 stored and variable v bound, with v present in the attached
store holding "100". -/
def omC2 : OptionManager :=
  { options := [⟨"x", VType.tInt, PValue.int 7, none, some "v", none, none⟩]
    values := [("x", PValue.int 5)]
    vars := ⟨[("v", "100")], []⟩ }

/-- omC2 after the bound variable v was removed from the store again. -/
def omC2rm : OptionManager :=
  { options := [⟨"x", VType.tInt, PValue.int 7, none, some "v", none, none⟩]
    values := [("x", PValue.int 5)]
    vars := ⟨[], []⟩ }

/-- As omC2rm but without any literal override. -/
def omC2rm2 : OptionManager :=
  { options := [⟨"x", VType.tInt, PValue.int 7, none, some "v", none, none⟩]
    values := []
    vars := ⟨[], []⟩ }

/-- An int option "n" with inclusive bounds [0, 10] and variable v bound. -/
def omC10opt : Opt := ⟨"n", VType.tInt, PValue.int 0, none, some "v", some 0, some 10⟩

/-- An OptionManager holding omC10opt, with the bound variable v present
in the attached store holding the out-of-range string "100". -/
def omC10 : OptionManager :=
  { options := [omC10opt]
    values := []
    vars := ⟨[("v", "100")], []⟩ }

/-- A concrete subclass implementation over sub-state Nat (say, a buffer
fill count) exporting into Nat: the export hook hands the buffer out and
the import hook puts it back; reset clears it to 0, setup leaves it alone
(derived state omitted). -/
def implC3 : SubImpl Nat Nat :=
  { resetSub := fun _ => 0
    setupSub := fun s => s
    detectVars := ["v"]
    backup := fun s => s
    restore := fun _ d => d }

/-- An actor state whose watched-variable changed flag is set and whose
transient sub-state is 42. -/
def aC3 : ActorState Nat :=
  { stopped := false
    logPfx := some "pfx"
    varsChanged := true
    varsDetected := ["old"]
    listening := true
    sub := 42 }

/-- A freshly constructed ActorHandler: setup never ran, so the _director
attribute was never assigned. -/
def c5Fresh : HActor := .handler false none [.leaf false]

/-- A composite after setup: director present (not stopped), two children
of which one is itself a set-up composite; nothing executed or stopped
yet. -/
def c5Setup : HActor :=
  .handler false (some (some false))
    [.leaf false, .handler false (some (some false)) [.leaf false]]

/-- c5Setup with every stopped flag (composite, director, all children,
grandchildren) set. -/
def c5Stopped : HActor :=
  .handler true (some (some true))
    [.leaf true, .handler true (some (some true)) [.leaf true]]

/-- A store binding the variable a to a value that references a itself. -/
def c6Vars : List (String × String) := [("a", "@\x7ba\x7d")]

/-- The input "@\x7ba\x7d": a single reference to the self-referential
variable a. -/
def c6Input : List Char := "@\x7ba\x7d".toList

/-- Reference pool of the outer composite, holding an actor named X. -/
def cPoolA : PActor := .refPool "poolA" true [.plain "X" "from poolA"]

/-- Reference pool of the inner composite, holding its own actor named X. -/
def cPoolB : PActor := .refPool "poolB" true [.plain "X" "from poolB"]

/-- The inner composite: its own pool and the referencing actor R. -/
def cInner : PActor := .handler "Inner" true [cPoolB, .plain "R" ""]

/-- The outer composite: pool A, then the inner composite. -/
def cOuter : PActor := .handler "Outer" true [cPoolA, cInner]

/-- A listener object whose class implements only the
StorageChangeListener interface (storage_changed, no variables_changed). -/
def pureStorageListener : ChangeListener := ⟨false, true, [], []⟩

/-- A listener object implementing both callback interfaces. -/
def dualListener : ChangeListener := ⟨true, true, [], []⟩

/-- A listener object whose class implements only the
VariableChangeListener interface. -/
def pureVarsListener : ChangeListener := ⟨true, false, [], []⟩

/-! ## Supporting lemmas -/

theorem stringDataInj (a b : String) (h : a.data = b.data) : a = b := by
  cases a
  cases b
  simp only at h
  rw [h]

theorem natStrAux_ne_nil (f n : Nat) (h : 0 < f) : natStrAux f n ≠ [] := by
  match f with
  | f + 1 =>
    simp only [natStrAux]
    split
    · simp
    · simp

theorem natStrAux_fuel (n : Nat) : ∀ f g, n < f → n < g →
    natStrAux f n = natStrAux g n := by
  induction n using Nat.strong_induction_on with
  | _ n ih =>
    intro f g hf hg
    match f, g with
    | f + 1, g + 1 =>
      simp only [natStrAux]
      split
      · rfl
      · rename_i h10
        have hd : n / 10 < n := Nat.div_lt_self (by omega) (by omega)
        rw [ih (n / 10) hd f g (by omega) (by omega)]

theorem digitChar_inj (a b : Nat) (ha : a < 10) (hb : b < 10)
    (h : digitChar a = digitChar b) : a = b := by
  interval_cases a <;> interval_cases b <;> revert h <;> decide

theorem natStr_inj (a b : Nat) (h : natStr a = natStr b) : a = b := by
  induction a using Nat.strong_induction_on generalizing b with
  | _ a ih =>
    have hl : natStrAux (a + 1) a = natStrAux (b + 1) b := congrArg String.data h
    by_cases ha : a < 10 <;> by_cases hb : b < 10
    · simp only [natStrAux, if_pos ha, if_pos hb] at hl
      exact digitChar_inj a b ha hb (by simpa using hl)
    · exfalso
      simp only [natStrAux, if_pos ha, if_neg hb] at hl
      have hne : natStrAux b (b / 10) ≠ [] := natStrAux_ne_nil b (b / 10) (by omega)
      have hlen := congrArg List.length hl
      simp only [List.length_append, List.length_cons, List.length_nil] at hlen
      have : 0 < (natStrAux b (b / 10)).length := List.length_pos.mpr hne
      omega
    · exfalso
      simp only [natStrAux, if_neg ha, if_pos hb] at hl
      have hne : natStrAux a (a / 10) ≠ [] := natStrAux_ne_nil a (a / 10) (by omega)
      have hlen := congrArg List.length hl
      simp only [List.length_append, List.length_cons, List.length_nil] at hlen
      have : 0 < (natStrAux a (a / 10)).length := List.length_pos.mpr hne
      omega
    · simp only [natStrAux, if_neg ha, if_neg hb] at hl
      have hsp := List.append_inj' hl (by simp)
      have hdiv : a / 10 = b / 10 := by
        apply ih (a / 10) (Nat.div_lt_self (by omega) (by omega))
        apply congrArg String.mk
        have h1 := hsp.1
        rwa [natStrAux_fuel (a / 10) a (a / 10 + 1) (Nat.div_lt_self (by omega) (by omega)) (Nat.lt_succ_self _),
             natStrAux_fuel (b / 10) b (b / 10 + 1) (Nat.div_lt_self (by omega) (by omega)) (Nat.lt_succ_self _)] at h1
      have hmod : a % 10 = b % 10 := by
        apply digitChar_inj _ _ (Nat.mod_lt _ (by omega)) (Nat.mod_lt _ (by omega))
        simpa using hsp.2
      have h1 := Nat.div_add_mod a 10
      have h2 := Nat.div_add_mod b 10
      omega

theorem candName_inj (base : String) (i j : Nat) (h : candName base i = candName base j) :
    i = j := by
  apply natStr_inj
  have hd := congrArg String.data h
  simp only [candName, String.data_append, List.append_assoc] at hd
  have h1 := List.append_cancel_left hd
  have h2 := List.append_cancel_left h1
  have h3 := List.append_cancel_right h2
  exact stringDataInj _ _ h3

theorem exists_fresh_cand (base : String) (names : List String) :
    ∃ j, 1 < j ∧ j ≤ 1 + (names.length + 1) ∧ candName base j ∉ names := by
  by_contra hcon
  push_neg at hcon
  have hsub : Finset.image (fun k : Fin (names.length + 1) => candName base (k.1 + 2))
      Finset.univ ⊆ names.toFinset := by
    intro x hx
    simp only [Finset.mem_image] at hx
    obtain ⟨k, _, rfl⟩ := hx
    rw [List.mem_toFinset]
    exact hcon _ (by omega) (by omega)
  have hinj : Function.Injective
      (fun k : Fin (names.length + 1) => candName base (k.1 + 2)) := by
    intro x y hxy
    have := candName_inj base _ _ hxy
    exact Fin.ext (by omega)
  have hcard := Finset.card_le_card hsub
  rw [Finset.card_image_of_injective _ hinj, Finset.card_univ, Fintype.card_fin] at hcard
  have := names.toFinset_card_le
  omega

theorem renameWhile_spec (base : String) (names : List String) :
    ∀ fuel i name,
      ((∃ j, i < j ∧ j ≤ i + fuel ∧ candName base j ∉ names) ∨ name ∉ names) →
      renameWhile base names fuel i name ∉ names := by
  intro fuel
  induction fuel with
  | zero =>
    intro i name h
    rcases h with ⟨j, h1, h2, _⟩ | h
    · omega
    · simpa [renameWhile] using h
  | succ fuel ih =>
    intro i name h
    by_cases hm : name ∈ names
    · rw [renameWhile, if_pos hm]
      rcases h with ⟨j, h1, h2, h3⟩ | h
      · by_cases hj : j = i + 1
        · exact ih (i + 1) _ (Or.inr (hj ▸ h3))
        · exact ih (i + 1) _ (Or.inl ⟨j, by omega, by omega, h3⟩)
      · exact absurd hm h
    · rw [renameWhile, if_neg hm]
      exact hm

theorem renameWhile_fresh (base : String) (names : List String) :
    renameWhile base names (names.length + 1) 1 base ∉ names := by
  apply renameWhile_spec
  rcases exists_fresh_cand base names with ⟨j, h1, h2, h3⟩
  exact Or.inl ⟨j, h1, by omega, h3⟩

theorem nodup_concat (l : List String) (x : String) (h : l.Nodup) (hx : x ∉ l) :
    (l ++ [x]).Nodup := by
  rw [List.nodup_append]
  refine ⟨h, List.nodup_singleton x, ?_⟩
  intro a ha hb
  simp only [List.mem_singleton] at hb
  subst hb
  exact hx ha

theorem dedupGo_nodup : ∀ (actors names : List String), names.Nodup →
    (dedupGo actors names).Nodup := by
  intro actors
  induction actors with
  | nil =>
    intro names h
    simpa [dedupGo] using h
  | cons a rest ih =>
    intro names h
    by_cases hm : a ∈ names
    · rw [dedupGo, if_pos hm]
      exact ih _ (nodup_concat _ _ h (renameWhile_fresh a names))
    · rw [dedupGo, if_neg hm]
      exact ih _ (nodup_concat _ _ h hm)

theorem exceptBindOk {α β : Type} (a : α) (f : α → Except String β) :
    (Except.ok a : Except String α) >>= f = f a := rfl

/-! ## Claims -/

/-- C1, counterexample.  The claim says that after OptionManager.set with a
padded variable reference no literal override remains stored for that
option.  The code falsifies this: starting from omC1, set("x", 5) followed
by set("x", "@\x7bv\x7d") yields a manager in which variable v is bound to
option x AND the literal override 5 is still stored in _values — both are
active at once. -/
theorem c1_literal_survives_binding :
    (omC1.set "x" (PValue.int 5)).bind
      (fun om1 => om1.set "x" (PValue.str "@\x7bv\x7d")) = .ok omC1after ∧
    assocGet omC1after.values "x" = some (PValue.int 5) ∧
    omC1after.has_var "x" = true :=
  ⟨rfl, rfl, rfl⟩

/-- C1, amended: OptionManager.set with a padded variable reference binds
the variable on the option descriptor and leaves the stored literal
overrides untouched (no clearing), and set with a literal value stores the
override and leaves every option's variable binding untouched (no
clearing); an option can therefore hold a literal override and a bound
variable simultaneously, with get giving the variable precedence. -/
theorem c1_amended_no_clearing (om : OptionManager) (name : String) (o : Opt)
    (s : String) (v : PValue) (hfind : om.findOpt name = some o) :
    (is_var s = true →
      om.set name (PValue.str s) =
        .ok (om.updOpt name (fun o => { o with var := some (unpad_var s) })) ∧
      (om.updOpt name (fun o => { o with var := some (unpad_var s) })).values
        = om.values) ∧
    (v.isVar = false → pyIsInstance v o.value_type = true →
      o.is_in_range v = .ok none →
      om.set name v = .ok { om with values := assocSet om.values name v } ∧
      ∀ n, ({ om with values := assocSet om.values name v } : OptionManager).get_var n
        = om.get_var n) := by
  constructor
  · intro hv
    refine ⟨?_, rfl⟩
    simp only [OptionManager.set, hfind, PValue.isVar, hv, if_true]
  · intro hnv ht hr
    refine ⟨?_, fun n => rfl⟩
    simp only [OptionManager.set, hfind, hnv, ht, hr, Bool.not_true, Bool.false_eq_true,
      if_false]

theorem c1_amended_no_clearing_witness :
    omC1.set "x" (PValue.str "@\x7bv\x7d") =
      .ok (omC1.updOpt "x" (fun o => { o with var := some (unpad_var "@\x7bv\x7d") })) ∧
    (omC1.updOpt "x" (fun o => { o with var := some (unpad_var "@\x7bv\x7d") })).values
      = omC1.values :=
  (c1_amended_no_clearing omC1 "x" ⟨"x", VType.tInt, PValue.int 0, none, none, none, none⟩
    "@\x7bv\x7d" (PValue.int 5) rfl).1 rfl

/-- C2: OptionManager.get follows the precedence: when a variable is
bound to the option and currently present in the attached store, the
variable's string value converted through the type's registered reader is
returned; otherwise (variable bound but absent, or no variable bound) the
literal override is returned when one exists, else the declared default.
In particular, binding a variable and then removing it from the store
falls back to the prior literal override, else the default (witness). -/
theorem c2_get_precedence (om : OptionManager) (name : String) (o : Opt)
    (hfind : om.findOpt name = some o) :
    (∀ v s val, o.var = some v → is_valid_name v = true →
      assocGet om.vars.data v = some s →
      readerConvert o.value_type s = .ok val →
      om.get name = .ok (some val)) ∧
    (∀ v, o.var = some v → is_valid_name v = true →
      assocGet om.vars.data v = none →
      om.get name = .ok (some (match assocGet om.values name with
        | some lit => lit
        | none => o.def_value))) ∧
    (o.var = none →
      om.get name = .ok (some (match assocGet om.values name with
        | some lit => lit
        | none => o.def_value))) := by
  refine ⟨?_, ?_, ?_⟩
  · intro v s val hv hvalid hlook hconv
    simp only [OptionManager.get, hfind, hv, Variables.hasE, hvalid, if_true, hlook,
      get_string_reader, Option.isSome_some, exceptBindOk, hconv]
  · intro v hv hvalid hlook
    simp only [OptionManager.get, hfind, hv, Variables.hasE, hvalid, if_true, hlook,
      Option.isSome_none, exceptBindOk]
    cases hval : assocGet om.values name <;> simp [hval]
  · intro hv
    simp only [OptionManager.get, hfind, hv]
    cases hval : assocGet om.values name <;> simp [hval]

theorem c2_get_precedence_witness :
    omC2.get "x" = .ok (some (PValue.int 100)) ∧
    omC2rm.get "x" = .ok (some (PValue.int 5)) ∧
    omC2rm2.get "x" = .ok (some (PValue.int 7)) :=
  ⟨(c2_get_precedence omC2 "x" _ rfl).1 "v" "100" (PValue.int 100) rfl rfl rfl rfl,
   (c2_get_precedence omC2rm "x" _ rfl).2.1 "v" rfl rfl rfl,
   (c2_get_precedence omC2rm2 "x" _ rfl).2.1 "v" rfl rfl rfl⟩

/-- C3: when the watched-variable changed flag is set, _pre_execute
reconfigures: it exports the subclass transient state via _backup_state,
resets derived state, re-runs setup, and re-imports the exported state via
_restore_state; afterwards the changed flag is cleared (so a second
_pre_execute without further variable change is a no-op) and, whenever the
export/import hooks round-trip, the exported transient state is preserved
unchanged. -/
theorem c3_reconfiguration {σ δ : Type} (impl : SubImpl σ δ) (a : ActorState σ)
    (hchanged : a.varsChanged = true)
    (hroundtrip : ∀ s d, impl.backup (impl.restore s d) = d) :
    (Actor.pre_execute impl a).1 = none ∧
    (Actor.pre_execute impl a).2.varsChanged = false ∧
    (Actor.pre_execute impl a).2.sub =
      impl.restore (impl.setupSub (impl.resetSub a.sub)) (impl.backup a.sub) ∧
    (Actor.pre_execute impl a).2.varsDetected = impl.detectVars ∧
    impl.backup (Actor.pre_execute impl a).2.sub = impl.backup a.sub ∧
    Actor.pre_execute impl (Actor.pre_execute impl a).2 =
      (none, (Actor.pre_execute impl a).2) := by
  refine ⟨?_, ?_, ?_, ?_, ?_, ?_⟩ <;>
    simp [Actor.pre_execute, hchanged, Actor.reset, Actor.setup, hroundtrip]

theorem c3_reconfiguration_witness :
    (Actor.pre_execute implC3 aC3).1 = none ∧
    (Actor.pre_execute implC3 aC3).2.varsChanged = false ∧
    (Actor.pre_execute implC3 aC3).2.sub = 42 ∧
    (Actor.pre_execute implC3 aC3).2.varsDetected = ["v"] := by
  have h := c3_reconfiguration implC3 aC3 rfl (fun s d => rfl)
  exact ⟨h.1, h.2.1, h.2.2.1, h.2.2.2.1⟩

/-- C4, counterexample.  The claim says execute short-circuits on the
first failure so that a stage returning a failure message prevents the
later stages from running.  The code falsifies this: with _do_execute
returning the failure message "doExecute failed", _post_execute still runs
(the log ends with "post"). -/
theorem c4_post_runs_after_do_failure :
    executeStages (logStage "pre" none) (logStage "do" (some "doExecute failed"))
      (logPost "post") [] = (some "doExecute failed", ["pre", "do", "post"]) :=
  rfl

/-- C4, amended: execute runs preExecute, then doExecute, then
postExecute; a failure message from preExecute skips doExecute and
postExecute, but a failure message from doExecute does NOT prevent
postExecute from running (the message is still the returned result); and
an exception raised by any of the three stages is caught and returned as
the failure message instead of propagating out of execute. -/
theorem c4_execute_orchestration (preR doR : Option String) :
    (executeStages (logStage "pre" preR) (logStage "do" doR) (logPost "post") [] =
      match preR with
      | some m => (some m, ["pre"])
      | none => (doR, ["pre", "do", "post"])) ∧
    executeStages (raiseStage "boom") (logStage "do" doR) (logPost "post") [] =
      (some "boom", []) ∧
    executeStages (logStage "pre" none) (raiseStage "bang") (logPost "post") [] =
      (some "bang", ["pre"]) ∧
    executeStages (logStage "pre" none) (logStage "do" doR) (raisePost "crash") [] =
      (some "crash", ["pre", "do"]) := by
  cases preR <;>
    simp [executeStages, logStage, raiseStage, logPost, raisePost]

/-- C5: the code evaluated at the failing input of the claim.  On a
freshly constructed ActorHandler (setup never ran) stop_execution raises
AttributeError, because self._director is assigned nowhere before
ActorHandler.setup — the claim's "succeeds without fault at any time after
construction" fails.  After setup, stop_execution does succeed, sets
is_stopped on the composite, on its director and on every (even nested and
never-executed) child, and is idempotent. -/
theorem c5_stop_execution_behavior :
    HActor.stopExec c5Fresh =
      .error "AttributeError: ActorHandler object has no attribute _director" ∧
    HActor.stopExec c5Setup = .ok c5Stopped ∧
    HActor.stopExec c5Stopped = .ok c5Stopped :=
  ⟨rfl, rfl, rfl⟩

/-- C6: the code evaluated at the failing input of the claim.  The claim
says expand terminates on every input with the iteration count bounded by
the number of references initially present.  With the store binding a to
"@\x7ba\x7d" and the input "@\x7ba\x7d" (one reference), every pass
reproduces the input with the expanded flag set, so the outer while loop
of expand never exits: no iteration budget whatsoever makes the loop
terminate. -/
theorem c6_expand_diverges_on_self_reference (fuel : Nat) :
    expandFuel c6Vars fuel c6Input = none := by
  induction fuel with
  | zero => rfl
  | succ n ih => exact ih

/-- C7: the sibling names produced by the actors setter are pairwise
distinct for every input list, and the duplicate inputs "A","A","A" come
out as "A", "A (2)", "A (3)" — the first occurrence keeps the bare name,
later ones get the " (i)" suffixes in order. -/
theorem c7_sibling_name_dedup (actors : List String) :
    (uniqueNames actors).Nodup ∧
    uniqueNames ["A", "A", "A"] = ["A", "A (2)", "A (3)"] :=
  ⟨dedupGo_nodup actors [] List.nodup_nil, rfl⟩

/-- C8: callable-actor resolution searches the referencing actor's
qualifying ancestor composites nearest-to-farthest, looking names up in
reference-pool composites (directly, or among an ancestor's immediate
children); with nested pools Outer(poolA:[X]) containing Inner(poolB:[X]),
a reference to X issued from inside Inner resolves to poolB's X, a
reference issued from the level of Inner resolves to poolA's X, and an
unknown name yields none. -/
theorem c8_nearest_pool_wins :
    find_callable_actor_recursive cOuter [1, 1] "X" =
      some (PActor.plain "X" "from poolB") ∧
    find_callable_actor_recursive cOuter [1] "X" =
      some (PActor.plain "X" "from poolA") ∧
    find_callable_actor_recursive cOuter [1, 1] "Y" = none :=
  ⟨rfl, rfl, rfl⟩

/-- C9: the code evaluated at the failing input of the claim.  The claim
says Storage delivers added/updated/deleted/cleared events to the
listener's storage-change callback exactly as Variables delivers to its
variable-change listeners.  In fact Storage._notify_listeners invokes
variables_changed: a listener implementing only the StorageChangeListener
interface makes set/remove/clear raise AttributeError, and even for a
listener implementing both interfaces the events arrive at the
variables-changed callback while the storage-changed callback never sees
anything; Variables.set itself behaves as specified. -/
theorem c9_storage_misdispatches_events :
    Storage.set ⟨[], [pureStorageListener]⟩ "k" "v" =
      .error "AttributeError: variables_changed" ∧
    Storage.set ⟨[], [dualListener]⟩ "k" "v" =
      .ok ⟨[("k", "v")], [⟨true, true, [⟨"added", some "k"⟩], []⟩]⟩ ∧
    Storage.remove ⟨[("k", "v")], [pureStorageListener]⟩ "k" =
      .error "AttributeError: variables_changed" ∧
    Storage.clear ⟨[], [pureStorageListener]⟩ =
      .error "AttributeError: variables_changed" ∧
    Variables.set ⟨[], [pureVarsListener]⟩ "k" "v" =
      .ok ⟨[("k", "v")], [⟨true, false, [⟨"added", some "k"⟩], []⟩]⟩ :=
  ⟨rfl, rfl, rfl, rfl, rfl⟩

/-- C10: numeric bounds are enforced only on literal assignment through
OptionManager.set; when the value arrives through a bound variable,
OptionManager.get returns the converted variable value without any bounds
check.  Concretely, option n has inclusive bounds [0, 10], yet with the
bound variable v holding "100" get returns 100, which is_in_range flags
as above the upper bound, while the same literal 100 is rejected by
set. -/
theorem c10_bounds_not_checked_via_variable :
    omC10.get "n" = .ok (some (PValue.int 100)) ∧
    omC10opt.is_in_range (PValue.int 100) = .ok (some "Above upper bound") ∧
    omC10.set "n" (PValue.int 100) = .error "Invalid value for n: Above upper bound" :=
  ⟨rfl, rfl, rfl⟩
